/-
Verification of the TI-RSLK UART/SPI lab programs
(src/ECE595RL_UART_and_SPI/UART/UART_main.c and
 src/ECE595RL_UART_and_SPI/SPI/SPI_main.c).

The repository's logic is embedded shallowly:
  * `Transmit_UART_Data` (UART_main.c, lines 43-85): the button-status
    decoder of the UART variant.  In C it reads `Get_Buttons_Status()`
    (an external GPIO primitive); here the sampled status is a parameter.
    Its transmit side effect (`EUSCI_A2_UART_OutChar`) is made explicit
    as the list of bytes written to the wire.
  * `Change_Counter_Speed` (SPI_main.c, lines 54-91): the button-status
    decoder of the SPI/LCD variant, a pure function.
  * `UART_Ramp_Data` (UART_main.c, lines 221-230): the loopback ramp,
    parameterized by a model of the external serial channel
    (`ChannelModel`).  Besides the TX/RX buffers it records the ordered
    trace of send/receive events on the channel.
  * `Validate_UART_Loopback` (UART_main.c, lines 242-252): the loopback
    validator.  Its console output is modelled as a list of `Line`s; the
    buffer state is threaded through the fold exactly as the C loop body
    leaves it.
  * `mainLoopRun` (UART_main.c, lines 254-298): the run-once gating of
    the loopback main loop; the calls performed are recorded as events.

Machine integers are Nat with explicit `% 256` at every uint8_t store
or char conversion, mirroring the C truncations.
-/
import Mathlib

set_option maxRecDepth 10000

namespace RSLK

/-! ## Button decoders -/

/-- `Transmit_UART_Data` from UART_main.c (lines 43-85).
`button_status` is the value returned by the external
`Get_Buttons_Status()`.  The result is the pair of the C return value
`tx_data` (initialized to `0x00`) and the list of bytes passed to
`EUSCI_A2_UART_OutChar` while decoding (each `case` body assigns
`tx_data` and transmits it; the `switch` has no `default`). -/
def Transmit_UART_Data (button_status : Nat) : Nat × List Nat :=
  if button_status = 0x00 then (0x00, [0x00])
  else if button_status = 0x10 then (0xAA, [0xAA])
  else if button_status = 0x02 then (0x46, [0x46])
  else if button_status = 0x12 then (0xF0, [0xF0])
  else (0x00, [])

/-- `Change_Counter_Speed` from SPI_main.c (lines 54-91).
`button_status` is the value returned by the external
`Get_Buttons_Status()`; `clock_delay` is initialized to `0` and each
`case` body assigns the mapped delay.  No transmit occurs. -/
def Change_Counter_Speed (button_status : Nat) : Nat :=
  if button_status = 0x00 then 1000
  else if button_status = 0x10 then 200
  else if button_status = 0x02 then 3000
  else if button_status = 0x12 then 1000
  else 0

/-! ## The loopback channel, ramp and buffers -/

/-- `BUFFER_LENGTH` from UART_main.c line 205. -/
def BUFFER_LENGTH : Nat := 255

/-- Declared capacity of `uint8_t TX_Buffer[BUFFER_LENGTH]`
(UART_main.c line 207): valid indices are `0 .. TX_Buffer_capacity - 1`. -/
def TX_Buffer_capacity : Nat := BUFFER_LENGTH

/-- Declared capacity of `uint8_t RX_Buffer[BUFFER_LENGTH]`
(UART_main.c line 208). -/
def RX_Buffer_capacity : Nat := BUFFER_LENGTH

/-- The indices visited by the ramp loop
`for (int i = 0; i <= BUFFER_LENGTH; i++)` (UART_main.c line 224). -/
def rampLoopIndices : List Nat := List.range (BUFFER_LENGTH + 1)

/-- The indices visited by the validator loop
`for (int i = 0; i <= BUFFER_LENGTH; i++)` (UART_main.c line 244). -/
def validateLoopIndices : List Nat := List.range (BUFFER_LENGTH + 1)

/-- A model of the external EUSCI_A2 serial channel: `send` is
`EUSCI_A2_UART_OutChar` and `recv` is the blocking
`EUSCI_A2_UART_InChar`, over an abstract channel state `σ`. -/
structure ChannelModel (σ : Type) where
  send : σ → Nat → σ
  recv : σ → Nat × σ

/-- One observable action on the serial channel. -/
inductive ChEvent where
  | sendE (b : Nat)
  | recvE (b : Nat)
  deriving DecidableEq, Repr

/-- The program state touched by `UART_Ramp_Data`: the two global
buffers (as the sequences of bytes written so far), the ordered trace
of channel events, and the channel state. -/
structure RampState (σ : Type) where
  TX_Buffer : List Nat
  RX_Buffer : List Nat
  events : List ChEvent
  chan : σ

/-- One iteration of the ramp loop body (UART_main.c lines 225-227):
`TX_Buffer[i] = i;` stores `i` truncated to uint8_t;
`EUSCI_A2_UART_OutChar(i);` sends `i` truncated to a char;
`RX_Buffer[i] = EUSCI_A2_UART_InChar();` blocks for one byte and
stores it. -/
def rampIter {σ : Type} (C : ChannelModel σ) (st : RampState σ) (i : Nat) :
    RampState σ :=
  let txv := i % 256
  let s1 := C.send st.chan txv
  let b := (C.recv s1).1 % 256
  { TX_Buffer := st.TX_Buffer ++ [txv]
    RX_Buffer := st.RX_Buffer ++ [b]
    events := st.events ++ [ChEvent.sendE txv, ChEvent.recvE b]
    chan := (C.recv s1).2 }

/-- `UART_Ramp_Data` from UART_main.c (lines 221-230): the loop over
`rampLoopIndices`, starting from empty buffers and channel state `s0`. -/
def UART_Ramp_Data {σ : Type} (C : ChannelModel σ) (s0 : σ) : RampState σ :=
  rampLoopIndices.foldl (rampIter C) ⟨[], [], [], s0⟩

/-- The ideal channel of the spec: `receive()` returns exactly the last
value passed to `send()`.  Its state is that last value. -/
def idealChannel : ChannelModel Nat :=
  { send := fun _ b => b
    recv := fun s => (s, s) }

/-! ## The loopback validator -/

/-- The global buffer pair read by `Validate_UART_Loopback`. -/
structure LoopbackState where
  TX_Buffer : List Nat
  RX_Buffer : List Nat
  deriving DecidableEq, Repr

/-- One line printed by `Validate_UART_Loopback`:
`pair t r` is the unconditional `"TX Data: .. | RX Data: .."` line
(UART_main.c line 245) and `mismatch t r` is the
`"MISMATCH! .."` warning (line 248). -/
inductive Line where
  | pair (t r : Nat)
  | mismatch (t r : Nat)
  deriving DecidableEq, Repr

/-- One iteration of the validator loop body (UART_main.c lines
245-249): print the TX/RX pair, then, iff `TX_Buffer[i] != RX_Buffer[i]`,
print the MISMATCH warning.  The buffers are only read, never written,
so the state component is returned as received. -/
def validateStep (st : LoopbackState × List Line) (i : Nat) :
    LoopbackState × List Line :=
  let t := st.1.TX_Buffer.getD i 0
  let r := st.1.RX_Buffer.getD i 0
  let out := st.2 ++ [Line.pair t r]
  (st.1, if t ≠ r then out ++ [Line.mismatch t r] else out)

/-- `Validate_UART_Loopback` from UART_main.c (lines 242-252): the loop
over `validateLoopIndices`; returns the final buffer state and the
printed lines in order. -/
def Validate_UART_Loopback (s : LoopbackState) : LoopbackState × List Line :=
  validateLoopIndices.foldl validateStep (s, [])

/-- Whether a printed line is a MISMATCH warning. -/
def isMismatchLine : Line → Bool
  | Line.mismatch _ _ => true
  | Line.pair _ _ => false

/-- Whether a printed line is an unconditional TX/RX pair line. -/
def isPairLine : Line → Bool
  | Line.mismatch _ _ => false
  | Line.pair _ _ => true

/-- The MISMATCH warnings among the printed lines. -/
def mismatchLines (out : List Line) : List Line :=
  out.filter isMismatchLine

/-- The unconditional TX/RX pair lines among the printed lines. -/
def pairLines (out : List Line) : List Line :=
  out.filter isPairLine

/-! ## The run-once main loop of the loopback program -/

/-- A call performed inside the `run_once` block of the loopback
`main` (UART_main.c lines 291-296). -/
inductive MainEvent where
  | rampEvent
  | validateEvent
  deriving DecidableEq, Repr

/-- The state of the loopback `main` loop: the `run_once` flag and the
ordered trace of calls performed so far. -/
structure MainState where
  run_once : Nat
  calls : List MainEvent
  deriving DecidableEq, Repr

/-- `main`'s initialization (UART_main.c line 263): `run_once = 0x01`,
no calls performed yet. -/
def mainInit : MainState := ⟨0x01, []⟩

/-- One iteration of the `while(1)` loop (UART_main.c lines 284-297):
if `run_once == 0x01` then clear the flag and call `UART_Ramp_Data()`
followed by `Validate_UART_Loopback()`; otherwise do nothing. -/
def mainLoopIter (s : MainState) : MainState :=
  if s.run_once = 0x01 then
    ⟨0x00, s.calls ++ [MainEvent.rampEvent, MainEvent.validateEvent]⟩
  else s

/-- The main-loop state after `n` iterations from power-up. -/
def mainLoopRun : Nat → MainState
  | 0 => mainInit
  | n + 1 => mainLoopIter (mainLoopRun n)

/-! ## Helper lemmas on lists -/

lemma flatMap_congr_mem {α β : Type} {l : List α} {f g : α → List β}
    (h : ∀ x ∈ l, f x = g x) : l.flatMap f = l.flatMap g := by
  induction l with
  | nil => rfl
  | cons a t ih =>
      rw [List.flatMap_cons, List.flatMap_cons, h a (by simp),
        ih fun x hx => h x (by simp [hx])]

lemma flatMap_eq_nil_of {α β : Type} {l : List α} {f : α → List β}
    (h : ∀ x ∈ l, f x = []) : l.flatMap f = [] := by
  induction l with
  | nil => rfl
  | cons a t ih =>
      rw [List.flatMap_cons, h a (by simp), ih fun x hx => h x (by simp [hx])]
      rfl

lemma filter_flatMap_comm {α β : Type} (l : List α) (g : α → List β) (p : β → Bool) :
    (l.flatMap g).filter p = l.flatMap fun a => (g a).filter p := by
  induction l with
  | nil => rfl
  | cons a t ih => rw [List.flatMap_cons, List.flatMap_cons, List.filter_append, ih]

lemma flatMap_singleton_eq_map {α β : Type} (l : List α) (h : α → β) :
    (l.flatMap fun a => [h a]) = l.map h := by
  induction l with
  | nil => rfl
  | cons a t ih => rw [List.flatMap_cons, ih]; rfl

lemma range_flatMap_if_single {β : Type} (n k : Nat) (xs : List β) (hk : k < n) :
    ((List.range n).flatMap fun i => if i = k then xs else []) = xs := by
  induction n with
  | zero => exact absurd hk (Nat.not_lt_zero k)
  | succ n ih =>
      rw [List.range_succ, List.flatMap_append]
      rcases Nat.lt_succ_iff_lt_or_eq.mp hk with h | h
      · rw [ih h]
        have hn : ¬ (n = k) := by omega
        simp [hn]
      · subst h
        have hzero : ((List.range k).flatMap fun i =>
            if i = k then xs else []) = [] := by
          refine flatMap_eq_nil_of fun x hx => ?_
          have : x < k := List.mem_range.mp hx
          simp [Nat.ne_of_lt this]
        rw [hzero]
        simp

/-! ## The validator as printed lines -/

/-- The lines printed by one validator iteration at index `i`, as a
function of the buffer contents. -/
def iterLines (s : LoopbackState) (i : Nat) : List Line :=
  if s.TX_Buffer.getD i 0 ≠ s.RX_Buffer.getD i 0 then
    [Line.pair (s.TX_Buffer.getD i 0) (s.RX_Buffer.getD i 0),
     Line.mismatch (s.TX_Buffer.getD i 0) (s.RX_Buffer.getD i 0)]
  else [Line.pair (s.TX_Buffer.getD i 0) (s.RX_Buffer.getD i 0)]

lemma iterLines_of_ne (s : LoopbackState) (i : Nat)
    (h : s.TX_Buffer.getD i 0 ≠ s.RX_Buffer.getD i 0) :
    iterLines s i =
      [Line.pair (s.TX_Buffer.getD i 0) (s.RX_Buffer.getD i 0),
       Line.mismatch (s.TX_Buffer.getD i 0) (s.RX_Buffer.getD i 0)] := by
  unfold iterLines
  exact if_pos h

lemma iterLines_of_eq (s : LoopbackState) (i : Nat)
    (h : s.TX_Buffer.getD i 0 = s.RX_Buffer.getD i 0) :
    iterLines s i =
      [Line.pair (s.TX_Buffer.getD i 0) (s.RX_Buffer.getD i 0)] := by
  unfold iterLines
  exact if_neg (not_not_intro h)

lemma validateStep_eq (s : LoopbackState) (acc : List Line) (i : Nat) :
    validateStep (s, acc) i = (s, acc ++ iterLines s i) := by
  simp only [validateStep, iterLines]
  split_ifs <;> simp

lemma validate_foldl_fst (l : List Nat) (s : LoopbackState) (acc : List Line) :
    (l.foldl validateStep (s, acc)).1 = s := by
  induction l generalizing acc with
  | nil => rfl
  | cons i t ih =>
      rw [List.foldl_cons, validateStep_eq]
      exact ih _

lemma validate_foldl_snd (l : List Nat) (s : LoopbackState) (acc : List Line) :
    (l.foldl validateStep (s, acc)).2 = acc ++ l.flatMap (iterLines s) := by
  induction l generalizing acc with
  | nil => simp
  | cons i t ih =>
      rw [List.foldl_cons, validateStep_eq, ih, List.flatMap_cons,
        List.append_assoc]

lemma validate_snd_eq_bind (s : LoopbackState) :
    (Validate_UART_Loopback s).2 =
      (List.range (BUFFER_LENGTH + 1)).flatMap (iterLines s) := by
  have h := validate_foldl_snd validateLoopIndices s []
  simpa [Validate_UART_Loopback, validateLoopIndices] using h

lemma mismatchLines_nil_of_eq (s : LoopbackState)
    (h : s.TX_Buffer = s.RX_Buffer) :
    mismatchLines (Validate_UART_Loopback s).2 = [] := by
  rw [validate_snd_eq_bind]
  unfold mismatchLines
  rw [filter_flatMap_comm]
  refine flatMap_eq_nil_of fun i _ => ?_
  rw [iterLines_of_eq _ _ (by rw [h])]
  simp [isMismatchLine]

/-! ## The ramp's channel trace -/

/-- The strict request/response interleaving of a list of sent bytes
with a list of received bytes: send, matching receive, next send, ... -/
def interleaveSendRecv : List Nat → List Nat → List ChEvent
  | t :: ts, r :: rs =>
      ChEvent.sendE t :: ChEvent.recvE r :: interleaveSendRecv ts rs
  | _, _ => []

/-- Projection of a channel event onto its sent byte, if any. -/
def sentByte : ChEvent → Option Nat
  | ChEvent.sendE b => some b
  | ChEvent.recvE _ => none

lemma interleave_append (ts rs : List Nat) (a b : Nat)
    (h : ts.length = rs.length) :
    interleaveSendRecv (ts ++ [a]) (rs ++ [b]) =
      interleaveSendRecv ts rs ++ [ChEvent.sendE a, ChEvent.recvE b] := by
  induction ts generalizing rs with
  | nil =>
      cases rs with
      | nil => rfl
      | cons r rs => simp at h
  | cons t ts ih =>
      cases rs with
      | nil => simp at h
      | cons r rs =>
          simp only [List.length_cons, Nat.succ.injEq] at h
          simp only [List.cons_append, interleaveSendRecv, List.append_eq]
          rw [ih rs h]

lemma filterMap_sent_interleave (ts rs : List Nat)
    (h : ts.length = rs.length) :
    (interleaveSendRecv ts rs).filterMap sentByte = ts := by
  induction ts generalizing rs with
  | nil =>
      cases rs with
      | nil => rfl
      | cons r rs => simp at h
  | cons t ts ih =>
      cases rs with
      | nil => simp at h
      | cons r rs =>
          simp only [List.length_cons, Nat.succ.injEq] at h
          simp [interleaveSendRecv, List.filterMap_cons, sentByte, ih rs h]

lemma ramp_foldl_spec {σ : Type} (C : ChannelModel σ) (s0 : σ) (n : Nat) :
    ((List.range n).foldl (rampIter C) ⟨[], [], [], s0⟩).TX_Buffer =
      (List.range n).map (fun i => i % 256) ∧
    ((List.range n).foldl (rampIter C) ⟨[], [], [], s0⟩).RX_Buffer.length = n ∧
    ((List.range n).foldl (rampIter C) ⟨[], [], [], s0⟩).events =
      interleaveSendRecv
        ((List.range n).foldl (rampIter C) ⟨[], [], [], s0⟩).TX_Buffer
        ((List.range n).foldl (rampIter C) ⟨[], [], [], s0⟩).RX_Buffer := by
  induction n with
  | zero => exact ⟨rfl, rfl, rfl⟩
  | succ n ih =>
      obtain ⟨htx, hrx, hev⟩ := ih
      have hlen : ((List.range n).foldl (rampIter C)
          ⟨[], [], [], s0⟩).TX_Buffer.length = n := by
        rw [htx, List.length_map, List.length_range]
      rw [List.range_succ, List.foldl_append, List.foldl_cons, List.foldl_nil]
      refine ⟨?_, ?_, ?_⟩
      · simp [rampIter, htx, List.map_append]
      · simp only [rampIter, List.length_append, hrx, List.length_singleton]
      · simp only [rampIter, hev]
        rw [interleave_append _ _ _ _ (by rw [hlen, hrx])]

lemma ramp_ideal_rx_eq_tx (n : Nat) (s0 : Nat) :
    ((List.range n).foldl (rampIter idealChannel) ⟨[], [], [], s0⟩).RX_Buffer =
    ((List.range n).foldl (rampIter idealChannel) ⟨[], [], [], s0⟩).TX_Buffer := by
  induction n with
  | zero => rfl
  | succ n ih =>
      rw [List.range_succ, List.foldl_append, List.foldl_cons, List.foldl_nil]
      have hmod : n % 256 % 256 = n % 256 := by omega
      simp only [rampIter]
      rw [ih]
      simp [idealChannel, hmod]

/-! ## Theorems about the button decoders -/

/-- C5: For each of the four defined button-status inputs,
`Transmit_UART_Data` produces and transmits the mapped byte:
0x00 ↦ 0x00, 0x10 ↦ 0xAA, 0x02 ↦ 0x46, 0x12 ↦ 0xF0, with the decoded
byte written to the transmit channel as part of decoding. -/
theorem transmit_decoder_mapping :
    Transmit_UART_Data 0x00 = (0x00, [0x00]) ∧
    Transmit_UART_Data 0x10 = (0xAA, [0xAA]) ∧
    Transmit_UART_Data 0x02 = (0x46, [0x46]) ∧
    Transmit_UART_Data 0x12 = (0xF0, [0xF0]) := by
  refine ⟨?_, ?_, ?_, ?_⟩ <;> rfl

/-- C6: For any button-status value outside {0x00, 0x10, 0x02, 0x12},
`Transmit_UART_Data` returns 0x00 and transmits nothing, and
`Change_Counter_Speed` returns 0. -/
theorem decoder_undefined_input (b : Nat)
    (h0 : b ≠ 0x00) (h1 : b ≠ 0x10) (h2 : b ≠ 0x02) (h3 : b ≠ 0x12) :
    Transmit_UART_Data b = (0x00, []) ∧ Change_Counter_Speed b = 0 := by
  constructor <;> simp [Transmit_UART_Data, Change_Counter_Speed, h0, h1, h2, h3]

/-- Witness for C6 at the concrete undefined input 0x05. -/
theorem decoder_undefined_input_witness :
    Transmit_UART_Data 0x05 = (0x00, []) ∧ Change_Counter_Speed 0x05 = 0 :=
  decoder_undefined_input 0x05 (by decide) (by decide) (by decide) (by decide)

/-- C7: For each of the four defined button-status inputs,
`Change_Counter_Speed` returns the mapped millisecond delay:
0x00 ↦ 1000, 0x10 ↦ 200, 0x02 ↦ 3000, 0x12 ↦ 1000; this variant has no
transmit side effect (the function is pure). -/
theorem counter_speed_mapping :
    Change_Counter_Speed 0x00 = 1000 ∧
    Change_Counter_Speed 0x10 = 200 ∧
    Change_Counter_Speed 0x02 = 3000 ∧
    Change_Counter_Speed 0x12 = 1000 := by
  refine ⟨?_, ?_, ?_, ?_⟩ <;> rfl

/-- C10: For every button-status input, either `Transmit_UART_Data`
transmitted exactly the byte it returns, or it transmitted nothing and
returns 0x00; so the caller's `UART_TX_Data` always holds exactly what
was last put on the wire (or 0x00 if nothing was sent). -/
theorem transmit_return_matches_wire (b : Nat) :
    (Transmit_UART_Data b).2 = [(Transmit_UART_Data b).1] ∨
    ((Transmit_UART_Data b).2 = [] ∧ (Transmit_UART_Data b).1 = 0x00) := by
  unfold Transmit_UART_Data
  split_ifs <;> simp

/-- Witness for C10 at the concrete input 0x12. -/
theorem transmit_return_matches_wire_witness :
    (Transmit_UART_Data 0x12).2 = [(Transmit_UART_Data 0x12).1] ∨
    ((Transmit_UART_Data 0x12).2 = [] ∧ (Transmit_UART_Data 0x12).1 = 0x00) :=
  transmit_return_matches_wire 0x12

/-! ## Theorems about the loop bounds and buffer capacities -/

/-- C3: Both loopback loops run over indices `0 .. BUFFER_LENGTH`
inclusive while the buffers are declared with capacity exactly
`BUFFER_LENGTH` = 255, so the final iteration accesses element index
`BUFFER_LENGTH` of each buffer — one past the declared capacity (valid
indices are `0 .. BUFFER_LENGTH - 1`); the largest index touched is
255, not 256. -/
theorem loopback_loops_overrun_buffers :
    BUFFER_LENGTH = 255 ∧
    TX_Buffer_capacity = BUFFER_LENGTH ∧
    RX_Buffer_capacity = BUFFER_LENGTH ∧
    rampLoopIndices.getLast? = some BUFFER_LENGTH ∧
    validateLoopIndices.getLast? = some BUFFER_LENGTH ∧
    ¬ BUFFER_LENGTH < TX_Buffer_capacity ∧
    ¬ BUFFER_LENGTH < RX_Buffer_capacity ∧
    rampLoopIndices.all (fun i => decide (i ≤ 255)) = true ∧
    validateLoopIndices = rampLoopIndices ∧
    rampLoopIndices.length = BUFFER_LENGTH + 1 := by
  have e : rampLoopIndices = List.range BUFFER_LENGTH ++ [BUFFER_LENGTH] :=
    show List.range (BUFFER_LENGTH + 1) = _ from List.range_succ BUFFER_LENGTH
  refine ⟨rfl, rfl, rfl, ?_, ?_, Nat.lt_irrefl BUFFER_LENGTH,
    Nat.lt_irrefl BUFFER_LENGTH, ?_, rfl, ?_⟩
  · rw [e]
    exact List.getLast?_concat _
  · rw [show validateLoopIndices =
        List.range BUFFER_LENGTH ++ [BUFFER_LENGTH] from e]
    exact List.getLast?_concat _
  · refine List.all_eq_true.mpr fun i hi => ?_
    have hi2 : i < BUFFER_LENGTH + 1 := List.mem_range.mp hi
    have hi3 : i < 256 := hi2
    exact decide_eq_true (by omega)
  · show (List.range (BUFFER_LENGTH + 1)).length = BUFFER_LENGTH + 1
    exact List.length_range _

/-! ## Theorems about the loopback ramp and validator -/

lemma range_map_mod (n : Nat) (h : n ≤ 256) :
    (List.range n).map (fun i => i % 256) = List.range n := by
  induction n with
  | zero => rfl
  | succ n ih =>
      rw [List.range_succ, List.map_append, ih (by omega)]
      simp [Nat.mod_eq_of_lt (show n < 256 by omega)]

/-- C2: `UART_Ramp_Data` iterates i from 0 to 255 inclusive; for any
channel model it stores `i` (truncated to a byte) into `TX_Buffer[i]`,
so `TX_Buffer` ends as 0,1,...,255 in order; exactly one byte lands in
`RX_Buffer` per iteration; the channel trace is the strict per-index
interleaving send(TX[0]), recv(RX[0]), send(TX[1]), recv(RX[1]), ...
(never batched); and the sent bytes are exactly 0..255, each sent
exactly once, in order. -/
theorem ramp_interleaved_per_index {σ : Type} (C : ChannelModel σ) (s0 : σ) :
    (UART_Ramp_Data C s0).TX_Buffer = List.range 256 ∧
    (UART_Ramp_Data C s0).RX_Buffer.length = 256 ∧
    (UART_Ramp_Data C s0).events =
      interleaveSendRecv (List.range 256) (UART_Ramp_Data C s0).RX_Buffer ∧
    (UART_Ramp_Data C s0).events.filterMap sentByte = List.range 256 := by
  have e : UART_Ramp_Data C s0 =
      (List.range 256).foldl (rampIter C) ⟨[], [], [], s0⟩ := rfl
  obtain ⟨htx, hrx, hev⟩ := ramp_foldl_spec C s0 256
  rw [range_map_mod 256 (Nat.le_refl 256)] at htx
  rw [e]
  refine ⟨htx, hrx, ?_, ?_⟩
  · rw [hev, htx]
  · rw [hev, htx]
    exact filterMap_sent_interleave _ _ (by simp [hrx])

/-- Witness for C2, instantiated at the ideal channel with initial
state 0. -/
theorem ramp_interleaved_per_index_witness :
    (UART_Ramp_Data idealChannel 0).TX_Buffer = List.range 256 :=
  (ramp_interleaved_per_index idealChannel 0).1

/-- C1: Over an ideal channel — `receive()` returns exactly the last
value passed to `send()` — `UART_Ramp_Data` leaves `RX_Buffer` equal
to `TX_Buffer` element-wise over every index the loop touched, and
`Validate_UART_Loopback` on the resulting buffers prints no MISMATCH
line at all. -/
theorem ideal_channel_loopback_clean (s0 : Nat) :
    (UART_Ramp_Data idealChannel s0).RX_Buffer =
      (UART_Ramp_Data idealChannel s0).TX_Buffer ∧
    mismatchLines (Validate_UART_Loopback
      ⟨(UART_Ramp_Data idealChannel s0).TX_Buffer,
       (UART_Ramp_Data idealChannel s0).RX_Buffer⟩).2 = [] := by
  have h : (UART_Ramp_Data idealChannel s0).RX_Buffer =
      (UART_Ramp_Data idealChannel s0).TX_Buffer :=
    ramp_ideal_rx_eq_tx (BUFFER_LENGTH + 1) s0
  exact ⟨h, mismatchLines_nil_of_eq _ h.symm⟩

/-- Witness for C1 at the concrete initial channel state 0. -/
theorem ideal_channel_loopback_clean_witness :
    (UART_Ramp_Data idealChannel 0).RX_Buffer =
      (UART_Ramp_Data idealChannel 0).TX_Buffer :=
  (ideal_channel_loopback_clean 0).1

/-- C4: If the buffers agree everywhere in the loop range except at a
single index k, `Validate_UART_Loopback` prints the TX/RX pair line for
every index in the range (no early termination), prints exactly one
MISMATCH warning — the one for index k, right after k's pair line —
and nothing else: the mismatch stays a printed warning. -/
theorem validator_single_fault (tx rx : List Nat) (k : Nat)
    (hk : k < BUFFER_LENGTH + 1)
    (hne : tx.getD k 0 ≠ rx.getD k 0)
    (heq : ∀ j, j < BUFFER_LENGTH + 1 → j ≠ k → tx.getD j 0 = rx.getD j 0) :
    (Validate_UART_Loopback ⟨tx, rx⟩).2 =
      ((List.range (BUFFER_LENGTH + 1)).flatMap fun i =>
        if i = k then
          [Line.pair (tx.getD k 0) (rx.getD k 0),
           Line.mismatch (tx.getD k 0) (rx.getD k 0)]
        else [Line.pair (tx.getD i 0) (rx.getD i 0)]) ∧
    mismatchLines (Validate_UART_Loopback ⟨tx, rx⟩).2 =
      [Line.mismatch (tx.getD k 0) (rx.getD k 0)] ∧
    pairLines (Validate_UART_Loopback ⟨tx, rx⟩).2 =
      ((List.range (BUFFER_LENGTH + 1)).map fun i =>
        Line.pair (tx.getD i 0) (rx.getD i 0)) := by
  have h0 := validate_snd_eq_bind ⟨tx, rx⟩
  have hcong : ∀ i ∈ List.range (BUFFER_LENGTH + 1),
      iterLines ⟨tx, rx⟩ i =
        (if i = k then
          [Line.pair (tx.getD k 0) (rx.getD k 0),
           Line.mismatch (tx.getD k 0) (rx.getD k 0)]
        else [Line.pair (tx.getD i 0) (rx.getD i 0)]) := by
    intro i hi
    by_cases hik : i = k
    · subst hik
      rw [iterLines_of_ne ⟨tx, rx⟩ i hne, if_pos rfl]
    · rw [iterLines_of_eq ⟨tx, rx⟩ i (heq i (List.mem_range.mp hi) hik),
        if_neg hik]
  have hmain : (Validate_UART_Loopback ⟨tx, rx⟩).2 =
      ((List.range (BUFFER_LENGTH + 1)).flatMap fun i =>
        if i = k then
          [Line.pair (tx.getD k 0) (rx.getD k 0),
           Line.mismatch (tx.getD k 0) (rx.getD k 0)]
        else [Line.pair (tx.getD i 0) (rx.getD i 0)]) := by
    rw [h0]
    exact flatMap_congr_mem hcong
  refine ⟨hmain, ?_, ?_⟩
  · rw [hmain]
    unfold mismatchLines
    rw [filter_flatMap_comm]
    have h2 : ((List.range (BUFFER_LENGTH + 1)).flatMap fun i =>
        List.filter isMismatchLine (if i = k then
          [Line.pair (tx.getD k 0) (rx.getD k 0),
           Line.mismatch (tx.getD k 0) (rx.getD k 0)]
        else [Line.pair (tx.getD i 0) (rx.getD i 0)])) =
        ((List.range (BUFFER_LENGTH + 1)).flatMap fun i =>
          if i = k then [Line.mismatch (tx.getD k 0) (rx.getD k 0)] else []) :=
      flatMap_congr_mem fun i _ => by
        by_cases hik : i = k <;> simp [hik, isMismatchLine]
    rw [h2]
    exact range_flatMap_if_single _ _ _ hk
  · rw [hmain]
    unfold pairLines
    rw [filter_flatMap_comm]
    have h3 : ((List.range (BUFFER_LENGTH + 1)).flatMap fun i =>
        List.filter isPairLine (if i = k then
          [Line.pair (tx.getD k 0) (rx.getD k 0),
           Line.mismatch (tx.getD k 0) (rx.getD k 0)]
        else [Line.pair (tx.getD i 0) (rx.getD i 0)])) =
        ((List.range (BUFFER_LENGTH + 1)).flatMap fun i =>
          [Line.pair (tx.getD i 0) (rx.getD i 0)]) :=
      flatMap_congr_mem fun i _ => by
        by_cases hik : i = k
        · subst hik
          simp [isPairLine]
        · simp [hik, isPairLine]
    rw [h3]
    exact flatMap_singleton_eq_map _ _

/-- Witness for C4: TX = [5], RX = [9] — the buffers differ at index 0
and agree (on the `getD` default 0) at every other index of the loop
range; exactly one MISMATCH line is printed, for index 0. -/
theorem validator_single_fault_witness :
    mismatchLines (Validate_UART_Loopback ⟨[5], [9]⟩).2 =
      [Line.mismatch 5 9] := by
  have heq : ∀ j, j < BUFFER_LENGTH + 1 → j ≠ 0 →
      ([5] : List Nat).getD j 0 = ([9] : List Nat).getD j 0 := by
    intro j hj hjne
    cases j with
    | zero => exact absurd rfl hjne
    | succ j => simp [List.getD]
  have h := (validator_single_fault [5] [9] 0
    (Nat.succ_pos BUFFER_LENGTH) (by decide) heq).2.1
  have e1 : ([5] : List Nat).getD 0 0 = 5 := rfl
  have e2 : ([9] : List Nat).getD 0 0 = 9 := rfl
  rw [e1, e2] at h
  exact h

/-- C8: `Validate_UART_Loopback` mutates neither buffer — it returns
the buffer state exactly as received — and running it a second time
over that state prints exactly the same lines (hence the same mismatch
reports): it is a pure function of the buffer contents. -/
theorem validator_pure_idempotent (s : LoopbackState) :
    (Validate_UART_Loopback s).1 = s ∧
    (Validate_UART_Loopback ((Validate_UART_Loopback s).1)).2 =
      (Validate_UART_Loopback s).2 := by
  have h1 : (Validate_UART_Loopback s).1 = s :=
    validate_foldl_fst validateLoopIndices s []
  exact ⟨h1, by rw [h1]⟩

/-- Witness for C8 at the concrete buffer pair TX = [0,1,2],
RX = [0,9,2]. -/
theorem validator_pure_idempotent_witness :
    (Validate_UART_Loopback ⟨[0, 1, 2], [0, 9, 2]⟩).1 =
      (⟨[0, 1, 2], [0, 9, 2]⟩ : LoopbackState) :=
  (validator_pure_idempotent ⟨[0, 1, 2], [0, 9, 2]⟩).1

/-! ## Theorems about the run-once main loop -/

lemma mainLoopRun_succ_done (m : Nat) :
    mainLoopRun (m + 1) =
      ⟨0x00, [MainEvent.rampEvent, MainEvent.validateEvent]⟩ := by
  induction m with
  | zero => rfl
  | succ m ih =>
      show mainLoopIter (mainLoopRun (m + 1)) = _
      rw [ih]
      rfl

/-- C9: The loopback test is single-shot: at power-up `run_once` is
0x01 and nothing has been called; after the first loop iteration — and
after every later one — the state is exactly `run_once` = 0x00 with
`UART_Ramp_Data` then `Validate_UART_Loopback` called once each, so
every subsequent iteration is a no-op and the Done state is terminal
(`mainLoopIter` maps it to itself; `run_once` never returns to 0x01). -/
theorem loopback_single_shot (n : Nat) (h : 1 ≤ n) :
    mainLoopRun n =
      ⟨0x00, [MainEvent.rampEvent, MainEvent.validateEvent]⟩ ∧
    mainLoopRun 0 = ⟨0x01, []⟩ ∧
    mainLoopIter ⟨0x00, [MainEvent.rampEvent, MainEvent.validateEvent]⟩ =
      ⟨0x00, [MainEvent.rampEvent, MainEvent.validateEvent]⟩ := by
  obtain ⟨m, rfl⟩ : ∃ m, n = m + 1 := ⟨n - 1, by omega⟩
  exact ⟨mainLoopRun_succ_done m, rfl, rfl⟩

/-- Witness for C9 after three loop iterations. -/
theorem loopback_single_shot_witness :
    mainLoopRun 3 =
      ⟨0x00, [MainEvent.rampEvent, MainEvent.validateEvent]⟩ :=
  (loopback_single_shot 3 (by decide)).1

end RSLK
